import Mathlib

/-!
# Verification of the kubermatic project resource lifecycle

Shallow embedding of `src/kubermatic/resource_project.go`: the Create /
Read / Update / Delete operations of the Terraform resource, their retry
and poll loops, and the error classification they perform.

Remote calls are modelled by response functions (`Nat → …`) giving the
response of the remote API to the n-th request of a loop; elapsed time is
modelled by a fuel parameter bounding the number of attempts a loop may
make before its timeout elapses.  Error values are modelled structurally:
each `fmt.Errorf` wrapping in the source becomes a constructor of `ErrMsg`
recording exactly the pieces of information the format string embeds.
-/

/-- Go `map[string]string` as an association list; a real Go map has
pairwise distinct keys, which theorems assume where it matters. -/
abbrev Labels := List (String × String)

/-- `m[k]` lookup (first match). -/
def lookupL : Labels → String → Option String
  | [], _ => none
  | (k, v) :: rest, key => if k == key then some v else lookupL rest key

/-- Does the map contain key `k`? -/
def hasKey (m : Labels) (k : String) : Bool :=
  m.any (fun p => p.1 == k)

/-- Go `m[k] = v`: overwrite the existing entry or append a new one. -/
def insertL (m : Labels) (k v : String) : Labels :=
  if hasKey m k then m.map (fun p => if p.1 == k then (k, v) else p)
  else m ++ [(k, v)]

/-- `for key, val := range src { dst[key] = val }` into a fresh empty map
(the copy loop of `resourceProjectCreate` lines 58–62 and
`resourceProjectUpdate` lines 174–177). -/
def copyLabels (src : Labels) : Labels :=
  src.foldl (fun acc p => insertL acc p.1 p.2) []

instance {ε α : Type} [DecidableEq ε] [DecidableEq α] : DecidableEq (Except ε α) := fun a b =>
  match a, b with
  | .ok x, .ok y =>
    if h : x = y then isTrue (by rw [h]) else isFalse (fun hc => h (by injection hc))
  | .error x, .error y =>
    if h : x = y then isTrue (by rw [h]) else isFalse (fun hc => h (by injection hc))
  | .ok _, .error _ => isFalse (fun hc => Except.noConfusion hc)
  | .error _, .ok _ => isFalse (fun hc => Except.noConfusion hc)

/-- `projectActive` constant of the source. -/
def projectActive : String := "Active"

/-- `projectInactive` constant of the source. -/
def projectInactive : String := "Inactive"

/-- The error shapes the source distinguishes on a remote call:
`net.Error` (with its `Timeout()` and `Temporary()` flags),
`*project.GetProjectConflict`, `*project.GetProjectUnauthorized`,
`*project.GetProjectDefault` (carrying an HTTP status code), and any
other error. -/
inductive RemoteError
  | netError (isTimeout : Bool) (isTemporary : Bool) (msg : String)
  | conflict
  | unauthorized
  | defaultErr (code : Nat)
  | other (msg : String)
deriving DecidableEq, Repr

/-- The project payload returned by `GetProject`: `r.Payload` with the
timestamps already rendered by `.String()`. -/
structure ProjectPayload where
  id : String
  name : String
  labels : Labels
  status : String
  creationTimestamp : String
  deletionTimestamp : String
deriving DecidableEq, Repr

/-- The Terraform `*schema.ResourceData` fields this resource touches. -/
structure ResourceData where
  id : String
  name : String
  labels : Labels
  status : String
  creationTimestamp : String
  deletionTimestamp : String
deriving DecidableEq, Repr

/-- Structural model of the error values the operations surface: one
constructor per `fmt.Errorf` format string of the source, plus `clientErr`
for a raw remote error passed through unwrapped. -/
inductive ErrMsg
  | clientErr (e : RemoteError)
  | createFailed (inner : ErrMsg)
  | waitCreateFailed (id : String) (inner : ErrMsg)
  | networkReadIssue (id : String) (msg : String)
  | updateFailed (id : String) (inner : ErrMsg)
  | deleteFailed (id : String) (inner : ErrMsg)
  | stillExists (id : String) (status : String)
  | pollTimeout (lastState : String)
  | pollUnexpected (state : String)
  | timeoutElapsed
deriving DecidableEq, Repr

/-- One step of a `resource.Retry` body: return success, a retryable
error, or a non-retryable error. -/
inductive RetryStep
  | done
  | retry (e : ErrMsg)
  | abort (e : ErrMsg)
deriving DecidableEq, Repr

/-- Result of a whole `resource.Retry` loop: success, a non-retryable
error surfaced directly, or timeout (the SDK `TimeoutError` wrapping the
last retryable error). -/
inductive RetryOutcome
  | success
  | failure (e : ErrMsg)
  | timedOut (e : ErrMsg)
deriving DecidableEq, Repr

/-- Modelled from the spec: the flat retry loop of `resource.Retry`
(plugin SDK, not part of this repository) as described in the spec —
retry-until-timeout-or-non-retryable.  `fuel` is the number of attempts
the timeout still allows, `i` the index of the next attempt; the body may
change the resource state. -/
def retryRun {σ : Type} (body : Nat → σ → RetryStep × σ) :
    Nat → Nat → σ → RetryOutcome × σ
  | 0, _, s => (.timedOut .timeoutElapsed, s)
  | fuel + 1, i, s =>
    match body i s with
    | (.done, s') => (.success, s')
    | (.abort e, s') => (.failure e, s')
    | (.retry e, s') =>
      match fuel with
      | 0 => (.timedOut e, s')
      | _ + 1 => retryRun body fuel (i + 1) s'

/-- The body of `resourceProjectRead`'s retry closure (source lines
106–156), given the result of `GetProject` for the current attempt.
The `d.Set` calls of the successful branch update the local state. -/
def readBody (res : Except RemoteError ProjectPayload) (d : ResourceData) :
    RetryStep × ResourceData :=
  match res with
  | .error err =>
    match err with
    | .netError t p msg =>
      if t || p then (.retry (.networkReadIssue d.id msg), d)
      else (.abort (.clientErr (.netError t p msg)), d)
    | .conflict => (.abort (.clientErr .conflict), d)
    | .unauthorized => (.abort (.clientErr .unauthorized), d)
    | .defaultErr code =>
      if code == 403 || code == 404 then (.done, { d with id := "" })
      else (.abort (.clientErr (.defaultErr code)), d)
    | .other msg => (.abort (.clientErr (.other msg)), d)
  | .ok r =>
    (.done, { d with
        name := r.name
        labels := r.labels
        status := r.status
        creationTimestamp := r.creationTimestamp
        deletionTimestamp := r.deletionTimestamp })

/-- `resourceProjectRead` (source lines 101–158): the retry loop around
`GetProject(d.Id())`.  `server i id` is the remote response to the i-th
get of this loop for project `id`. -/
def resourceProjectRead (fuel : Nat)
    (server : Nat → String → Except RemoteError ProjectPayload)
    (d : ResourceData) : RetryOutcome × ResourceData :=
  retryRun (fun i s => readBody (server i s.id) s) fuel 0 d

/-- The body of `resourceProjectDelete`'s wait closure (source lines
200–214): only a `*project.GetProjectDefault` with code 403/404 ends the
wait successfully; any other get error is non-retryable; a successful get
means the project still exists and manufactures a retryable error. -/
def deleteWaitBody (res : Except RemoteError ProjectPayload)
    (d : ResourceData) : RetryStep × ResourceData :=
  match res with
  | .error err =>
    match err with
    | .defaultErr code =>
      if code == 403 || code == 404 then (.done, d)
      else (.abort (.clientErr (.defaultErr code)), d)
    | e => (.abort (.clientErr e), d)
  | .ok r => (.retry (.stillExists d.id r.status), d)

/-- `resourceProjectDelete` (source lines 191–221): the initial
`DeleteProject` call followed, on success, by the wait loop.
`deleteResp` is the response of the initial delete, `waitServer i id` the
response to the i-th `GetProject` of the wait loop. -/
def resourceProjectDelete (d : ResourceData)
    (deleteResp : Except RemoteError Unit)
    (waitServer : Nat → String → Except RemoteError ProjectPayload)
    (waitFuel : Nat) : RetryOutcome × ResourceData :=
  match deleteResp with
  | .error e => (.failure (.deleteFailed d.id (.clientErr e)), d)
  | .ok _ => retryRun (fun i s => deleteWaitBody (waitServer i s.id) s) waitFuel 0 d

/-- The three classes of the Error Classifier. -/
inductive ErrClass
  | retryable
  | nonRetryable
  | notFound
deriving DecidableEq, Repr

/-- The error classification policy the source applies (inline, in
`resourceProjectRead`): transient network errors are retryable, 403/404
is the not-found class, everything else is non-retryable. -/
def classifyErr : RemoteError → ErrClass
  | .netError t p _ => if t || p then .retryable else .nonRetryable
  | .conflict => .nonRetryable
  | .unauthorized => .nonRetryable
  | .defaultErr code =>
    if code == 403 || code == 404 then .notFound else .nonRetryable
  | .other _ => .nonRetryable

/-- Outcome of the poll-until-state engine, with the number of probes
performed. -/
inductive PollOutcome
  | success (obs : ProjectPayload)
  | failed (e : ErrMsg)
  | notFoundFailure (e : ErrMsg)
  | unexpectedState (state : String)
  | timedOut (lastState : String)
deriving DecidableEq, Repr

/-- Modelled from the spec: the Poll-Until-State Engine (the plugin SDK's
`StateChangeConf.WaitForState`, not part of this repository), as the spec
describes it — each probe error goes through the Error Classifier;
retryable errors are swallowed and the loop continues, non-retryable
errors abort, and NotFound is a hard failure in the wait-for-creation
context instantiated here; a probed state in `target` ends the loop
successfully, one in `pending` continues it, any other state aborts.
`fuel` bounds the probes the timeout still allows, `i` counts probes
performed, `lastState` is the last observed state (for the timeout
diagnostic).  Returns the outcome and the total number of probes. -/
def pollUntil (probe : Nat → Except RemoteError (ProjectPayload × String))
    (pending target : List String) :
    Nat → Nat → String → PollOutcome × Nat
  | 0, i, lastState => (.timedOut lastState, i)
  | fuel + 1, i, lastState =>
    match probe i with
    | .error e =>
      match classifyErr e with
      | .retryable => pollUntil probe pending target fuel (i + 1) lastState
      | .nonRetryable => (.failed (.clientErr e), i + 1)
      | .notFound => (.notFoundFailure (.clientErr e), i + 1)
    | .ok (obs, st) =>
      if target.contains st then (.success obs, i + 1)
      else if pending.contains st then
        pollUntil probe pending target fuel (i + 1) st
      else (.unexpectedState st, i + 1)

/-- The `Refresh` closure of `resourceProjectCreate` (source lines
78–86): one `GetProject` whose payload status is the state label. -/
def createProbe (server : Nat → Except RemoteError ProjectPayload)
    (i : Nat) : Except RemoteError (ProjectPayload × String) :=
  (server i).map (fun r => (r, r.status))

/-- The error `WaitForState` hands back on a non-successful outcome,
which `resourceProjectCreate` then wraps. -/
def pollErrMsg : PollOutcome → ErrMsg
  | .success _ => .timeoutElapsed
  | .failed e => e
  | .notFoundFailure e => e
  | .unexpectedState st => .pollUnexpected st
  | .timedOut st => .pollTimeout st

/-- `resourceProjectCreate` (source lines 52–99): the initial
`CreateProject` call (whose error is wrapped without any project id — no
id exists yet), then the wait for the `Active` state with
pending = {Inactive} and target = {Active}; on convergence the assigned
id is stored and the read is delegated to `resourceProjectRead`.
`createResp` is the response of the initial create (carrying the assigned
id), `pollServer` answers the poll's gets, `readServer` the delegated
read's gets. -/
def resourceProjectCreate (d : ResourceData)
    (createResp : Except RemoteError String)
    (pollServer : Nat → Except RemoteError ProjectPayload) (pollFuel : Nat)
    (readServer : Nat → String → Except RemoteError ProjectPayload)
    (readFuel : Nat) : RetryOutcome × ResourceData :=
  match createResp with
  | .error e => (.failure (.createFailed (.clientErr e)), d)
  | .ok fresh =>
    match pollUntil (createProbe pollServer) [projectInactive] [projectActive]
        pollFuel 0 "" with
    | (.success _, _) => resourceProjectRead readFuel readServer { d with id := fresh }
    | (o, _) => (.failure (.waitCreateFailed fresh (pollErrMsg o)), d)

/-- The outgoing `models.Project` body of an update request. -/
structure UpdateBody where
  name : String
  labels : Option Labels
deriving DecidableEq, Repr

/-- The payload construction of `resourceProjectUpdate` (source lines
162–181): `Name` is always set from the desired name; when
`d.HasChange("name")` it is set again to the same desired name; when
`d.HasChange("labels")` the complete desired label map is copied in. -/
def buildUpdateBody (d : ResourceData) (hasNameChange hasLabelsChange : Bool) :
    UpdateBody :=
  let b : UpdateBody := { name := d.name, labels := none }
  let b := if hasNameChange then { b with name := d.name } else b
  if hasLabelsChange then { b with labels := some (copyLabels d.labels) } else b

/-- `resourceProjectUpdate` (source lines 160–189): build the body, issue
`UpdateProject` (any error is wrapped with the project id and surfaced),
then delegate to `resourceProjectRead`.  `updateClient` maps the outgoing
body to the remote response. -/
def resourceProjectUpdate (d : ResourceData)
    (hasNameChange hasLabelsChange : Bool)
    (updateClient : UpdateBody → Except RemoteError Unit)
    (readServer : Nat → String → Except RemoteError ProjectPayload)
    (readFuel : Nat) : RetryOutcome × ResourceData :=
  match updateClient (buildUpdateBody d hasNameChange hasLabelsChange) with
  | .error e => (.failure (.updateFailed d.id (.clientErr e)), d)
  | .ok _ => resourceProjectRead readFuel readServer d

/-- Is this error value a transient transport error (either raw or as the
retryable wrapper `resourceProjectRead` builds for one)? -/
def ErrMsg.isTransient : ErrMsg → Bool
  | .clientErr (.netError t p _) => t || p
  | .networkReadIssue _ _ => true
  | _ => false

/-- Did the loop abort with a transient transport error surfaced as its
non-retryable failure? -/
def isTransientFailure : RetryOutcome → Bool
  | .failure e => e.isTransient
  | _ => false

/-- Did the poll engine abort with a transient transport error? -/
def isTransientPollFailure : PollOutcome → Bool
  | .failed e => e.isTransient
  | _ => false

/-- Does the structure of a surfaced error embed the given resource
identifier (through one of the source's `fmt.Errorf` wrappings)?  A raw
`clientErr` carries no wrapping and hence no identifier context. -/
def ErrMsg.mentionsId : ErrMsg → String → Bool
  | .clientErr _, _ => false
  | .createFailed inner, id => inner.mentionsId id
  | .waitCreateFailed i inner, id => i == id || inner.mentionsId id
  | .networkReadIssue i _, id => i == id
  | .updateFailed i inner, id => i == id || inner.mentionsId id
  | .deleteFailed i inner, id => i == id || inner.mentionsId id
  | .stillExists i _, id => i == id
  | .pollTimeout _, _ => false
  | .pollUnexpected _, _ => false
  | .timeoutElapsed, _ => false

/-- Is the surfaced error a raw remote/transport error with no operation
context wrapped around it? -/
def ErrMsg.isRawClientErr : ErrMsg → Bool
  | .clientErr _ => true
  | _ => false

/-- Was the get response a success (project still present)? -/
def isOkResp (res : Except RemoteError ProjectPayload) : Bool :=
  match res with
  | .ok _ => true
  | .error _ => false

/-- Did the delete wait time out on the manufactured still-exists
retryable error for this project id? -/
def isStillExistsTimeout (o : RetryOutcome) (id : String) : Bool :=
  match o with
  | .timedOut (.stillExists i _) => i == id
  | _ => false

/-- Did the poll end in convergence? -/
def isPollSuccess : PollOutcome → Bool
  | .success _ => true
  | _ => false

/-- Concrete local state used for concrete evaluations. -/
def sampleState : ResourceData :=
  { id := "p-1", name := "team-a", labels := [("env", "prod")],
    status := "Active", creationTimestamp := "2020-01-01",
    deletionTimestamp := "<nil>" }

/-- Concrete remote payload in the `Active` state. -/
def samplePayload : ProjectPayload :=
  { id := "p-1", name := "team-a", labels := [("env", "prod")],
    status := "Active", creationTimestamp := "2020-01-01",
    deletionTimestamp := "<nil>" }

/-- Concrete remote payload in the `Inactive` state. -/
def inactivePayload : ProjectPayload :=
  { samplePayload with status := "Inactive" }

lemma retryRun_zero {σ : Type} (body : Nat → σ → RetryStep × σ) (i : Nat) (s : σ) :
    retryRun body 0 i s = (.timedOut .timeoutElapsed, s) := rfl

lemma retryRun_done {σ : Type} (body : Nat → σ → RetryStep × σ) (fuel i : Nat)
    (s s' : σ) (h : body i s = (.done, s')) :
    retryRun body (fuel + 1) i s = (.success, s') := by
  simp [retryRun, h]

lemma retryRun_abort {σ : Type} (body : Nat → σ → RetryStep × σ) (fuel i : Nat)
    (s s' : σ) (e : ErrMsg) (h : body i s = (.abort e, s')) :
    retryRun body (fuel + 1) i s = (.failure e, s') := by
  simp [retryRun, h]

lemma retryRun_retry_last {σ : Type} (body : Nat → σ → RetryStep × σ) (i : Nat)
    (s s' : σ) (e : ErrMsg) (h : body i s = (.retry e, s')) :
    retryRun body 1 i s = (.timedOut e, s') := by
  simp [retryRun, h]

lemma retryRun_retry_cont {σ : Type} (body : Nat → σ → RetryStep × σ) (fuel i : Nat)
    (s s' : σ) (e : ErrMsg) (h : body i s = (.retry e, s')) :
    retryRun body (fuel + 2) i s = retryRun body (fuel + 1) (i + 1) s' := by
  simp [retryRun, h]

lemma pollUntil_zero (probe : Nat → Except RemoteError (ProjectPayload × String))
    (pending target : List String) (i : Nat) (last : String) :
    pollUntil probe pending target 0 i last = (.timedOut last, i) := rfl

lemma pollUntil_step_active (probe : Nat → Except RemoteError (ProjectPayload × String))
    (fuel i : Nat) (last : String) (obs : ProjectPayload)
    (h : probe i = .ok (obs, projectActive)) :
    pollUntil probe [projectInactive] [projectActive] (fuel + 1) i last =
      (.success obs, i + 1) := by
  simp [pollUntil, h, projectActive, projectInactive]

lemma pollUntil_step_inactive (probe : Nat → Except RemoteError (ProjectPayload × String))
    (fuel i : Nat) (last : String) (obs : ProjectPayload)
    (h : probe i = .ok (obs, projectInactive)) :
    pollUntil probe [projectInactive] [projectActive] (fuel + 1) i last =
      pollUntil probe [projectInactive] [projectActive] fuel (i + 1) projectInactive := by
  simp [pollUntil, h, projectActive, projectInactive]

lemma pollUntil_step_retryable (probe : Nat → Except RemoteError (ProjectPayload × String))
    (pending target : List String) (fuel i : Nat) (last : String) (e : RemoteError)
    (h : probe i = .error e) (hc : classifyErr e = .retryable) :
    pollUntil probe pending target (fuel + 1) i last =
      pollUntil probe pending target fuel (i + 1) last := by
  simp [pollUntil, h, hc]

lemma hasKey_nil (k : String) : hasKey [] k = false := rfl

lemma hasKey_append (a b : Labels) (k : String) :
    hasKey (a ++ b) k = (hasKey a k || hasKey b k) := by
  simp [hasKey, List.any_append]

lemma insertL_of_not_hasKey (m : Labels) (k v : String) (h : hasKey m k = false) :
    insertL m k v = m ++ [(k, v)] := by
  simp [insertL, h]

lemma foldl_insert_eq_append :
    ∀ (src acc : Labels), (∀ p ∈ src, hasKey acc p.1 = false) →
      (src.map Prod.fst).Nodup →
      src.foldl (fun a p => insertL a p.1 p.2) acc = acc ++ src := by
  intro src
  induction src with
  | nil => intro acc _ _; simp
  | cons p rest ih =>
    intro acc hdisj hnd
    have hp : hasKey acc p.1 = false := hdisj p (List.mem_cons_self p rest)
    have hins : insertL acc p.1 p.2 = acc ++ [p] := by
      rw [insertL_of_not_hasKey acc p.1 p.2 hp]
    have hnotin : ∀ x, (p.1, x) ∉ rest := by
      have := hnd
      simp [List.nodup_cons] at this
      exact this.1
    have hnd' : (rest.map Prod.fst).Nodup := by
      simp [List.nodup_cons] at hnd
      exact hnd.2
    have hdisj' : ∀ q ∈ rest, hasKey (acc ++ [p]) q.1 = false := by
      intro q hq
      rw [hasKey_append]
      have h1 : hasKey acc q.1 = false := hdisj q (List.mem_cons_of_mem p hq)
      have h2 : hasKey [p] q.1 = false := by
        have hne : p.1 ≠ q.1 := by
          intro hEq
          apply hnotin q.2
          have : (p.1, q.2) = q := by rw [hEq]
          rw [this]
          exact hq
        simp [hasKey, hne]
      simp [h1, h2]
    calc (p :: rest).foldl (fun a q => insertL a q.1 q.2) acc
        = rest.foldl (fun a q => insertL a q.1 q.2) (insertL acc p.1 p.2) := by
          simp [List.foldl_cons]
      _ = rest.foldl (fun a q => insertL a q.1 q.2) (acc ++ [p]) := by rw [hins]
      _ = (acc ++ [p]) ++ rest := ih (acc ++ [p]) hdisj' hnd'
      _ = acc ++ (p :: rest) := by simp

lemma copyLabels_eq_self (src : Labels) (hnd : (src.map Prod.fst).Nodup) :
    copyLabels src = src := by
  have h := foldl_insert_eq_append src [] (fun p _ => hasKey_nil p.1) hnd
  simpa [copyLabels] using h

lemma readBody_abort_not_transient (res : Except RemoteError ProjectPayload)
    (d s' : ResourceData) (e : ErrMsg) (h : readBody res d = (.abort e, s')) :
    e.isTransient = false := by
  cases res with
  | ok r => simp [readBody] at h
  | error err =>
    cases err with
    | netError t p msg =>
      cases htp : (t || p) with
      | true => simp [readBody, htp] at h
      | false =>
        simp [readBody, htp] at h
        rw [← h.1]
        simp [ErrMsg.isTransient, htp]
    | conflict =>
      simp [readBody] at h
      rw [← h.1]; simp [ErrMsg.isTransient]
    | unauthorized =>
      simp [readBody] at h
      rw [← h.1]; simp [ErrMsg.isTransient]
    | defaultErr code =>
      cases hc : (code == 403 || code == 404) with
      | true => simp [readBody, hc] at h
      | false =>
        simp [readBody, hc] at h
        rw [← h.1]; simp [ErrMsg.isTransient]
    | other msg =>
      simp [readBody] at h
      rw [← h.1]; simp [ErrMsg.isTransient]

lemma readBody_retry_inv (res : Except RemoteError ProjectPayload)
    (d s' : ResourceData) (e : ErrMsg) (h : readBody res d = (.retry e, s')) :
    s' = d ∧ ∃ msg, e = .networkReadIssue d.id msg := by
  cases res with
  | ok r => simp [readBody] at h
  | error err =>
    cases err with
    | netError t p msg =>
      cases htp : (t || p) with
      | true =>
        simp [readBody, htp] at h
        exact ⟨h.2.symm, msg, h.1.symm⟩
      | false => simp [readBody, htp] at h
    | conflict => simp [readBody] at h
    | unauthorized => simp [readBody] at h
    | defaultErr code =>
      cases hc : (code == 403 || code == 404) with
      | true => simp [readBody, hc] at h
      | false => simp [readBody, hc] at h
    | other msg => simp [readBody] at h

lemma deleteWaitBody_state (res : Except RemoteError ProjectPayload)
    (d : ResourceData) : (deleteWaitBody res d).2 = d := by
  cases res with
  | ok r => rfl
  | error err =>
    cases err with
    | defaultErr code =>
      cases hc : (code == 403 || code == 404) <;> simp [deleteWaitBody, hc]
    | netError t p msg => rfl
    | conflict => rfl
    | unauthorized => rfl
    | other msg => rfl

lemma deleteWaitBody_retry_inv (res : Except RemoteError ProjectPayload)
    (d s' : ResourceData) (e : ErrMsg) (h : deleteWaitBody res d = (.retry e, s')) :
    s' = d ∧ ∃ st, e = .stillExists d.id st := by
  cases res with
  | ok r =>
    simp [deleteWaitBody] at h
    exact ⟨h.2.symm, r.status, h.1.symm⟩
  | error err =>
    cases err with
    | defaultErr code =>
      cases hc : (code == 403 || code == 404) <;> simp [deleteWaitBody, hc] at h
    | netError t p msg => simp [deleteWaitBody] at h
    | conflict => simp [deleteWaitBody] at h
    | unauthorized => simp [deleteWaitBody] at h
    | other msg => simp [deleteWaitBody] at h

lemma read_no_transient_failure
    (server : Nat → String → Except RemoteError ProjectPayload) :
    ∀ (fuel i : Nat) (d : ResourceData),
      isTransientFailure
        (retryRun (fun j s => readBody (server j s.id) s) fuel i d).1 = false := by
  intro fuel
  induction fuel with
  | zero => intro i d; rfl
  | succ f ih =>
    intro i d
    rcases hb : readBody (server i d.id) d with ⟨st, s'⟩
    cases st with
    | done =>
      rw [retryRun_done _ f i d s' hb]
      rfl
    | abort e =>
      rw [retryRun_abort _ f i d s' e hb]
      simpa [isTransientFailure] using readBody_abort_not_transient _ d s' e hb
    | retry e =>
      cases f with
      | zero =>
        rw [retryRun_retry_last _ i d s' e hb]
        rfl
      | succ f' =>
        rw [retryRun_retry_cont _ f' i d s' e hb]
        exact ih (i + 1) s'

lemma read_timeout_err
    (server : Nat → String → Except RemoteError ProjectPayload) :
    ∀ (fuel i : Nat) (d : ResourceData) (e : ErrMsg),
      (retryRun (fun j s => readBody (server j s.id) s) fuel i d).1 = .timedOut e →
      e = .timeoutElapsed ∨ ∃ msg, e = .networkReadIssue d.id msg := by
  intro fuel
  induction fuel with
  | zero =>
    intro i d e h
    left
    simpa [retryRun_zero] using h.symm
  | succ f ih =>
    intro i d e h
    rcases hb : readBody (server i d.id) d with ⟨st, s'⟩
    cases st with
    | done => rw [retryRun_done _ f i d s' hb] at h; simp at h
    | abort e' => rw [retryRun_abort _ f i d s' e' hb] at h; simp at h
    | retry e' =>
      obtain ⟨hs, msg, hmsg⟩ := readBody_retry_inv _ d s' e' hb
      cases f with
      | zero =>
        rw [retryRun_retry_last _ i d s' e' hb] at h
        simp at h
        right
        exact ⟨msg, by rw [← h]; exact hmsg⟩
      | succ f' =>
        rw [retryRun_retry_cont _ f' i d s' e' hb] at h
        rw [hs] at h
        exact ih (i + 1) d e h

lemma classify_nonRetryable_not_transient (e : RemoteError)
    (h : classifyErr e = .nonRetryable) :
    (ErrMsg.clientErr e).isTransient = false := by
  cases e with
  | netError t p msg =>
    cases htp : (t || p) with
    | true => simp [classifyErr, htp] at h
    | false => simp [ErrMsg.isTransient, htp]
  | conflict => rfl
  | unauthorized => rfl
  | defaultErr code => rfl
  | other msg => rfl

lemma poll_no_transient_failure
    (probe : Nat → Except RemoteError (ProjectPayload × String))
    (pending target : List String) :
    ∀ (fuel i : Nat) (last : String),
      isTransientPollFailure (pollUntil probe pending target fuel i last).1 = false := by
  intro fuel
  induction fuel with
  | zero => intro i last; rfl
  | succ f ih =>
    intro i last
    rcases hp : probe i with e | obs
    · rcases hc : classifyErr e with _ | _ | _
      · rw [pollUntil_step_retryable probe pending target f i last e hp hc]
        exact ih (i + 1) last
      · have : pollUntil probe pending target (f + 1) i last =
            (.failed (.clientErr e), i + 1) := by
          simp [pollUntil, hp, hc]
        rw [this]
        simpa [isTransientPollFailure] using
          classify_nonRetryable_not_transient e hc
      · have : pollUntil probe pending target (f + 1) i last =
            (.notFoundFailure (.clientErr e), i + 1) := by
          simp [pollUntil, hp, hc]
        rw [this]
        rfl
    · rcases obs with ⟨r, st⟩
      by_cases ht : st ∈ target
      · have : pollUntil probe pending target (f + 1) i last = (.success r, i + 1) := by
          simp [pollUntil, hp, ht]
        rw [this]; rfl
      · by_cases hpd : st ∈ pending
        · have : pollUntil probe pending target (f + 1) i last =
              pollUntil probe pending target f (i + 1) st := by
            simp [pollUntil, hp, ht, hpd]
          rw [this]
          exact ih (i + 1) st
        · have : pollUntil probe pending target (f + 1) i last =
              (.unexpectedState st, i + 1) := by
            simp [pollUntil, hp, ht, hpd]
          rw [this]; rfl

lemma poll_reaches_active (server : Nat → Except RemoteError ProjectPayload)
    (pIn pAct : ProjectPayload)
    (hIn : pIn.status = projectInactive) (hAct : pAct.status = projectActive) :
    ∀ (n fuel i : Nat) (last : String), n < fuel →
      (∀ j, j < n → server (i + j) = .ok pIn) → server (i + n) = .ok pAct →
      pollUntil (createProbe server) [projectInactive] [projectActive] fuel i last =
        (.success pAct, i + n + 1) := by
  intro n
  induction n with
  | zero =>
    intro fuel i last hlt hpre hact
    cases fuel with
    | zero => omega
    | succ f =>
      have hprobe : createProbe server i = .ok (pAct, projectActive) := by
        have : server i = .ok pAct := by simpa using hact
        simp [createProbe, this, Except.map, hAct]
      rw [pollUntil_step_active (createProbe server) f i last pAct hprobe]
  | succ n ih =>
    intro fuel i last hlt hpre hact
    cases fuel with
    | zero => omega
    | succ f =>
      have h0 : server i = .ok pIn := by
        have := hpre 0 (Nat.succ_pos n)
        simpa using this
      have hprobe : createProbe server i = .ok (pIn, projectInactive) := by
        simp [createProbe, h0, Except.map, hIn]
      rw [pollUntil_step_inactive (createProbe server) f i last pIn hprobe]
      have hpre' : ∀ j, j < n → server (i + 1 + j) = .ok pIn := by
        intro j hj
        have := hpre (j + 1) (Nat.succ_lt_succ hj)
        have harith : i + (j + 1) = i + 1 + j := by omega
        rwa [harith] at this
      have hact' : server (i + 1 + n) = .ok pAct := by
        have harith : i + (n + 1) = i + 1 + n := by omega
        rwa [harith] at hact
      have := ih f (i + 1) projectInactive (by omega) hpre' hact'
      rw [this]
      have : i + 1 + n + 1 = i + (n + 1) + 1 := by omega
      rw [this]

lemma poll_permanently_inactive (server : Nat → Except RemoteError ProjectPayload)
    (pIn : ProjectPayload) (hIn : pIn.status = projectInactive)
    (hall : ∀ j, server j = .ok pIn) :
    ∀ (fuel i : Nat) (last : String), 1 ≤ fuel →
      pollUntil (createProbe server) [projectInactive] [projectActive] fuel i last =
        (.timedOut projectInactive, i + fuel) := by
  intro fuel
  induction fuel with
  | zero => intro i last h; omega
  | succ f ih =>
    intro i last _
    have hprobe : createProbe server i = .ok (pIn, projectInactive) := by
      simp [createProbe, hall i, Except.map, hIn]
    rw [pollUntil_step_inactive (createProbe server) f i last pIn hprobe]
    cases f with
    | zero => simp [pollUntil_zero]
    | succ f' =>
      rw [ih (i + 1) projectInactive (by omega)]
      have : i + 1 + (f' + 1) = i + (f' + 1 + 1) := by omega
      rw [this]

lemma deleteWait_reaches_notfound
    (server : Nat → String → Except RemoteError ProjectPayload)
    (d : ResourceData) (c : Nat) (hc : (c == 403 || c == 404) = true) :
    ∀ (n fuel i : Nat), n < fuel →
      (∀ j, j < n → isOkResp (server (i + j) d.id) = true) →
      server (i + n) d.id = .error (.defaultErr c) →
      retryRun (fun j s => deleteWaitBody (server j s.id) s) fuel i d =
        (.success, d) := by
  intro n
  induction n with
  | zero =>
    intro fuel i hlt hpre hnf
    cases fuel with
    | zero => omega
    | succ f =>
      have h0 : server i d.id = .error (.defaultErr c) := by simpa using hnf
      have hb : deleteWaitBody (server i d.id) d = (.done, d) := by
        simp [deleteWaitBody, h0, hc]
      exact retryRun_done _ f i d d hb
  | succ n ih =>
    intro fuel i hlt hpre hnf
    cases fuel with
    | zero => omega
    | succ f =>
      have h0 : isOkResp (server i d.id) = true := by
        have := hpre 0 (Nat.succ_pos n)
        simpa using this
      rcases hsrv : server i d.id with e | r
      · rw [hsrv] at h0; simp [isOkResp] at h0
      · have hb : deleteWaitBody (server i d.id) d =
            (.retry (.stillExists d.id r.status), d) := by
          simp [deleteWaitBody, hsrv]
        cases f with
        | zero => omega
        | succ f' =>
          rw [retryRun_retry_cont _ f' i d d _ hb]
          have hpre' : ∀ j, j < n → isOkResp (server (i + 1 + j) d.id) = true := by
            intro j hj
            have := hpre (j + 1) (Nat.succ_lt_succ hj)
            have harith : i + (j + 1) = i + 1 + j := by omega
            rwa [harith] at this
          have hnf' : server (i + 1 + n) d.id = .error (.defaultErr c) := by
            have harith : i + (n + 1) = i + 1 + n := by omega
            rwa [harith] at hnf
          exact ih (f' + 1) (i + 1) (by omega) hpre' hnf'

lemma deleteWait_permanently_found
    (server : Nat → String → Except RemoteError ProjectPayload)
    (d : ResourceData) (hall : ∀ j, isOkResp (server j d.id) = true) :
    ∀ (fuel i : Nat), 1 ≤ fuel →
      isStillExistsTimeout
          (retryRun (fun j s => deleteWaitBody (server j s.id) s) fuel i d).1 d.id = true ∧
        (retryRun (fun j s => deleteWaitBody (server j s.id) s) fuel i d).2 = d := by
  intro fuel
  induction fuel with
  | zero => intro i h; omega
  | succ f ih =>
    intro i _
    have h0 := hall i
    rcases hsrv : server i d.id with e | r
    · rw [hsrv] at h0; simp [isOkResp] at h0
    · have hb : deleteWaitBody (server i d.id) d =
          (.retry (.stillExists d.id r.status), d) := by
        simp [deleteWaitBody, hsrv]
      cases f with
      | zero =>
        rw [retryRun_retry_last _ i d d _ hb]
        constructor
        · simp [isStillExistsTimeout]
        · rfl
      | succ f' =>
        rw [retryRun_retry_cont _ f' i d d _ hb]
        exact ih (i + 1) (by omega)

lemma deleteWait_timeout_err
    (server : Nat → String → Except RemoteError ProjectPayload) :
    ∀ (fuel i : Nat) (d : ResourceData) (e : ErrMsg),
      (retryRun (fun j s => deleteWaitBody (server j s.id) s) fuel i d).1 = .timedOut e →
      e = .timeoutElapsed ∨ ∃ st, e = .stillExists d.id st := by
  intro fuel
  induction fuel with
  | zero =>
    intro i d e h
    left
    simpa [retryRun_zero] using h.symm
  | succ f ih =>
    intro i d e h
    rcases hb : deleteWaitBody (server i d.id) d with ⟨st, s'⟩
    cases st with
    | done => rw [retryRun_done _ f i d s' hb] at h; simp at h
    | abort e' => rw [retryRun_abort _ f i d s' e' hb] at h; simp at h
    | retry e' =>
      obtain ⟨hs, stx, hstx⟩ := deleteWaitBody_retry_inv _ d s' e' hb
      cases f with
      | zero =>
        rw [retryRun_retry_last _ i d s' e' hb] at h
        simp at h
        right
        exact ⟨stx, by rw [← h]; exact hstx⟩
      | succ f' =>
        rw [retryRun_retry_cont _ f' i d s' e' hb] at h
        rw [hs] at h
        exact ih (i + 1) d e h

/-- Claim C2: for every Update call, the outgoing update payload always
contains the current desired name, even when only labels changed; it
contains a labels field only when the caller flags a labels change, and
when present that field equals the complete desired label set, never a
partial diff. -/
theorem claimC2_update_payload (d : ResourceData) (hasNameChange hasLabelsChange : Bool)
    (hnd : (d.labels.map Prod.fst).Nodup) :
    (buildUpdateBody d hasNameChange hasLabelsChange).name = d.name
    ∧ ((buildUpdateBody d hasNameChange hasLabelsChange).labels.isSome = hasLabelsChange)
    ∧ (buildUpdateBody d hasNameChange true).labels = some d.labels := by
  refine ⟨?_, ?_, ?_⟩ <;> cases hasNameChange <;> cases hasLabelsChange <;>
    simp [buildUpdateBody, copyLabels_eq_self d.labels hnd]

/-- Witness for C2 at a concrete state with one label. -/
theorem claimC2_witness :
    (buildUpdateBody sampleState false true).name = sampleState.name
    ∧ ((buildUpdateBody sampleState false true).labels.isSome = true)
    ∧ (buildUpdateBody sampleState false true).labels = some sampleState.labels :=
  claimC2_update_payload sampleState false true (by decide)

/-- Claim C3: for every Read call whose remote get fails with a NotFound
classification (an explicit 404 or, by policy, a 403), Read returns
success and clears the stored identity. -/
theorem claimC3_read_notfound_success (fuel : Nat)
    (server : Nat → String → Except RemoteError ProjectPayload)
    (d : ResourceData) (c : Nat) (hf : 1 ≤ fuel)
    (hresp : server 0 d.id = .error (.defaultErr c))
    (hc : (c == 403 || c == 404) = true) :
    resourceProjectRead fuel server d = (.success, { d with id := "" }) := by
  obtain ⟨f, rfl⟩ : ∃ f, fuel = f + 1 := ⟨fuel - 1, by omega⟩
  have hb : readBody (server 0 d.id) d = (.done, { d with id := "" }) := by
    simp [readBody, hresp, hc]
  exact retryRun_done _ f 0 d _ hb

/-- Witness for C3 with a 403 response on the first get. -/
theorem claimC3_witness :
    resourceProjectRead 1 (fun _ _ => .error (.defaultErr 403)) sampleState =
      (.success, { sampleState with id := "" }) :=
  claimC3_read_notfound_success 1 _ sampleState 403 (by omega) rfl rfl

/-- Claim C4: at every call site that classifies a remote error — Read's
loop body, Delete's wait-loop body, and the poll engine's classifier — a
forbidden (403) response and a not-found (404) response produce the same
step, the same error class, and the same state change. -/
theorem claimC4_forbidden_eq_notfound (d : ResourceData) :
    readBody (.error (.defaultErr 403)) d = readBody (.error (.defaultErr 404)) d
    ∧ deleteWaitBody (.error (.defaultErr 403)) d = deleteWaitBody (.error (.defaultErr 404)) d
    ∧ classifyErr (.defaultErr 403) = classifyErr (.defaultErr 404) :=
  ⟨rfl, rfl, rfl⟩

/-- Claim C10: when Read classifies the resource as absent (403 or 404),
it changes only the stored identity, clearing it; name, labels, status
and the two timestamps are left unchanged, at the body level and for the
whole Read loop. -/
theorem claimC10_absent_frame (d : ResourceData) (c : Nat)
    (hc : (c == 403 || c == 404) = true) :
    readBody (.error (.defaultErr c)) d = (.done, { d with id := "" })
    ∧ (readBody (.error (.defaultErr c)) d).2.id = ""
    ∧ (readBody (.error (.defaultErr c)) d).2.name = d.name
    ∧ (readBody (.error (.defaultErr c)) d).2.labels = d.labels
    ∧ (readBody (.error (.defaultErr c)) d).2.status = d.status
    ∧ (readBody (.error (.defaultErr c)) d).2.creationTimestamp = d.creationTimestamp
    ∧ (readBody (.error (.defaultErr c)) d).2.deletionTimestamp = d.deletionTimestamp
    ∧ (∀ (server : Nat → String → Except RemoteError ProjectPayload) (fuel : Nat),
        1 ≤ fuel → server 0 d.id = .error (.defaultErr c) →
        (resourceProjectRead fuel server d).2 = { d with id := "" }) := by
  have h : readBody (.error (.defaultErr c)) d = (.done, { d with id := "" }) := by
    simp [readBody, hc]
  refine ⟨h, ?_, ?_, ?_, ?_, ?_, ?_, ?_⟩
  · rw [h]
  · rw [h]
  · rw [h]
  · rw [h]
  · rw [h]
  · rw [h]
  · intro server fuel hf hresp
    obtain ⟨f, rfl⟩ : ∃ f, fuel = f + 1 := ⟨fuel - 1, by omega⟩
    have hb : readBody (server 0 d.id) d = (.done, { d with id := "" }) := by
      rw [hresp]; exact h
    have hrun : retryRun (fun j (s : ResourceData) => readBody (server j s.id) s)
        (f + 1) 0 d = (.success, { d with id := "" }) :=
      retryRun_done _ f 0 d _ hb
    show (retryRun (fun j (s : ResourceData) => readBody (server j s.id) s)
        (f + 1) 0 d).2 = _
    rw [hrun]

/-- Witness for C10 with a 404 response. -/
theorem claimC10_witness :
    readBody (.error (.defaultErr 404)) sampleState =
      (.done, { sampleState with id := "" })
    ∧ (readBody (.error (.defaultErr 404)) sampleState).2.id = ""
    ∧ (readBody (.error (.defaultErr 404)) sampleState).2.name = sampleState.name
    ∧ (readBody (.error (.defaultErr 404)) sampleState).2.labels = sampleState.labels
    ∧ (readBody (.error (.defaultErr 404)) sampleState).2.status = sampleState.status
    ∧ (readBody (.error (.defaultErr 404)) sampleState).2.creationTimestamp =
        sampleState.creationTimestamp
    ∧ (readBody (.error (.defaultErr 404)) sampleState).2.deletionTimestamp =
        sampleState.deletionTimestamp
    ∧ (∀ (server : Nat → String → Except RemoteError ProjectPayload) (fuel : Nat),
        1 ≤ fuel → server 0 sampleState.id = .error (.defaultErr 404) →
        (resourceProjectRead fuel server sampleState).2 = { sampleState with id := "" }) :=
  claimC10_absent_frame sampleState 404 rfl

/-- Counterexample to C1: in Delete's wait loop a single transient
network error (a `net.Error` timeout, classified RetryableTransport) is
surfaced immediately as a non-retryable failure, even though the very
next probe would have confirmed deletion — the wait loop only
special-cases `GetProjectDefault` errors. -/
theorem claimC1_counterexample :
    resourceProjectDelete sampleState (.ok ())
        (fun i _ => if i == 0 then .error (.netError true false "i/o timeout")
          else .error (.defaultErr 404)) 5 =
      (.failure (.clientErr (.netError true false "i/o timeout")), sampleState)
    ∧ ErrMsg.isTransient (.clientErr (.netError true false "i/o timeout")) = true := by
  exact ⟨rfl, rfl⟩

/-- Claim C1 (amended): a RetryableTransport error is absorbed inside
Read's retry loop and inside Create's poll — neither ever surfaces one as
its failure, and in Read a single transient error followed by a
successful probe converges — but Delete's wait loop surfaces any
transport error immediately as a non-retryable failure. -/
theorem claimC1_retryable_absorption
    (d : ResourceData) (pay : ProjectPayload) (t p : Bool) (msg : String)
    (rfuel : Nat) (dserver : Nat → String → Except RemoteError ProjectPayload)
    (dfuel : Nat)
    (hrf : 2 ≤ rfuel) (htp : (t || p) = true) (hdf : 1 ≤ dfuel)
    (hd0 : dserver 0 d.id = .error (.netError t p msg)) :
    (∀ (server : Nat → String → Except RemoteError ProjectPayload) (fuel i : Nat)
        (s : ResourceData),
      isTransientFailure
        (retryRun (fun j u => readBody (server j u.id) u) fuel i s).1 = false)
    ∧ (∀ (probe : Nat → Except RemoteError (ProjectPayload × String))
        (pending target : List String) (fuel i : Nat) (last : String),
      isTransientPollFailure (pollUntil probe pending target fuel i last).1 = false)
    ∧ resourceProjectRead rfuel
        (fun i _ => if i == 0 then .error (.netError t p msg) else .ok pay) d =
      (.success, { d with
          name := pay.name, labels := pay.labels, status := pay.status,
          creationTimestamp := pay.creationTimestamp,
          deletionTimestamp := pay.deletionTimestamp })
    ∧ resourceProjectDelete d (.ok ()) dserver dfuel =
      (.failure (.clientErr (.netError t p msg)), d) := by
  refine ⟨?_, ?_, ?_, ?_⟩
  · intro server fuel i s
    exact read_no_transient_failure server fuel i s
  · intro probe pending target fuel i last
    exact poll_no_transient_failure probe pending target fuel i last
  · obtain ⟨f, rfl⟩ : ∃ f, rfuel = f + 2 := ⟨rfuel - 2, by omega⟩
    have hb0 : (fun j (s : ResourceData) =>
          readBody (if j == 0 then Except.error (RemoteError.netError t p msg)
            else Except.ok pay) s) 0 d =
        (.retry (.networkReadIssue d.id msg), d) := by
      simp [readBody, htp]
    have hb1 : (fun j (s : ResourceData) =>
          readBody (if j == 0 then Except.error (RemoteError.netError t p msg)
            else Except.ok pay) s) 1 d =
        (.done, { d with
            name := pay.name, labels := pay.labels, status := pay.status,
            creationTimestamp := pay.creationTimestamp,
            deletionTimestamp := pay.deletionTimestamp }) := by
      simp [readBody]
    have h1 := retryRun_retry_cont (fun j (s : ResourceData) =>
      readBody (if j == 0 then Except.error (RemoteError.netError t p msg)
        else Except.ok pay) s) f 0 d d _ hb0
    have h2 := retryRun_done (fun j (s : ResourceData) =>
      readBody (if j == 0 then Except.error (RemoteError.netError t p msg)
        else Except.ok pay) s) f 1 d _ hb1
    exact h1.trans h2
  · obtain ⟨f, rfl⟩ : ∃ f, dfuel = f + 1 := ⟨dfuel - 1, by omega⟩
    have hb : (fun j (s : ResourceData) => deleteWaitBody (dserver j s.id) s) 0 d =
        (.abort (.clientErr (.netError t p msg)), d) := by
      show deleteWaitBody (dserver 0 d.id) d = _
      rw [hd0]
      rfl
    exact retryRun_abort (fun j (s : ResourceData) =>
      deleteWaitBody (dserver j s.id) s) f 0 d d _ hb

/-- Witness for C1 at concrete inputs: a transient timeout on the first
read probe followed by a success converges, and the same transient error
aborts Delete's wait. -/
theorem claimC1_witness :
    resourceProjectRead 5
        (fun i _ => if i == 0 then .error (.netError true false "t/o")
          else .ok samplePayload) sampleState =
      (.success, { sampleState with
          name := samplePayload.name, labels := samplePayload.labels,
          status := samplePayload.status,
          creationTimestamp := samplePayload.creationTimestamp,
          deletionTimestamp := samplePayload.deletionTimestamp })
    ∧ resourceProjectDelete sampleState (.ok ())
        (fun _ _ => .error (.netError true false "t/o")) 3 =
      (.failure (.clientErr (.netError true false "t/o")), sampleState) := by
  have h := claimC1_retryable_absorption sampleState samplePayload true false "t/o" 5
    (fun _ _ => .error (.netError true false "t/o")) 3
    (by omega) rfl (by omega) rfl
  exact ⟨h.2.2.1, h.2.2.2⟩

/-- Claim C5: for every probe sequence of n Inactive observations
followed by an Active one, Create's poll converges successfully after
exactly n + 1 polls, and Create then stores the assigned identity and
delegates to Read; for a permanently Inactive probe sequence, the poll
fails with Timeout once the configured bound elapses. -/
theorem claimC5_create_poll
    (serverA serverB : Nat → Except RemoteError ProjectPayload)
    (pIn pAct pIn2 : ProjectPayload) (n fuelA fuelB : Nat)
    (d : ResourceData) (fresh : String)
    (readServer : Nat → String → Except RemoteError ProjectPayload) (readFuel : Nat)
    (hIn : pIn.status = projectInactive) (hAct : pAct.status = projectActive)
    (hn : n < fuelA)
    (hpre : ∀ j, j < n → serverA j = .ok pIn) (hact : serverA n = .ok pAct)
    (hIn2 : pIn2.status = projectInactive) (hall : ∀ j, serverB j = .ok pIn2)
    (hB : 1 ≤ fuelB) :
    pollUntil (createProbe serverA) [projectInactive] [projectActive] fuelA 0 "" =
      (.success pAct, n + 1)
    ∧ pollUntil (createProbe serverB) [projectInactive] [projectActive] fuelB 0 "" =
      (.timedOut projectInactive, fuelB)
    ∧ resourceProjectCreate d (.ok fresh) serverA fuelA readServer readFuel =
      resourceProjectRead readFuel readServer { d with id := fresh } := by
  have hpre0 : ∀ j, j < n → serverA (0 + j) = .ok pIn := by
    intro j hj
    simpa using hpre j hj
  have hact0 : serverA (0 + n) = .ok pAct := by simpa using hact
  have h1 := poll_reaches_active serverA pIn pAct hIn hAct n fuelA 0 "" hn hpre0 hact0
  rw [Nat.zero_add] at h1
  have h2 := poll_permanently_inactive serverB pIn2 hIn2 hall fuelB 0 "" hB
  rw [Nat.zero_add] at h2
  refine ⟨h1, h2, ?_⟩
  simp [resourceProjectCreate, h1]

/-- Witness for C5: two Inactive probes then an Active one converge in
three polls; four permanently Inactive probes time out. -/
theorem claimC5_witness :
    pollUntil
        (createProbe (fun i => if i < 2 then .ok inactivePayload else .ok samplePayload))
        [projectInactive] [projectActive] 5 0 "" = (.success samplePayload, 3)
    ∧ pollUntil (createProbe (fun _ => .ok inactivePayload))
        [projectInactive] [projectActive] 4 0 "" = (.timedOut projectInactive, 4)
    ∧ resourceProjectCreate { sampleState with id := "" } (.ok "p-1")
        (fun i => if i < 2 then .ok inactivePayload else .ok samplePayload) 5
        (fun _ _ => .ok samplePayload) 1 =
      resourceProjectRead 1 (fun _ _ => .ok samplePayload)
        { sampleState with id := "p-1" } :=
  claimC5_create_poll
    (fun i => if i < 2 then .ok inactivePayload else .ok samplePayload)
    (fun _ => .ok inactivePayload) inactivePayload samplePayload inactivePayload
    2 5 4 { sampleState with id := "" } "p-1" (fun _ _ => .ok samplePayload) 1
    rfl rfl (by omega) (by decide) (by decide) rfl (fun _ => rfl) (by omega)

/-- Claim C6: for every Delete whose initial remote delete succeeds, a
probe sequence of n still-present reads followed by a 403/404 converges
to success with the state untouched; a probe sequence that never reaches
NotFound within the timeout fails with Timeout carrying the manufactured
still-exists error; and a successful read is always turned into a
retryable still-exists condition. -/
theorem claimC6_delete_wait
    (d : ResourceData) (serverA serverB : Nat → String → Except RemoteError ProjectPayload)
    (c n fuelA fuelB : Nat)
    (hc : (c == 403 || c == 404) = true) (hn : n < fuelA)
    (hok : ∀ j, j < n → isOkResp (serverA j d.id) = true)
    (hnf : serverA n d.id = .error (.defaultErr c))
    (hB : 1 ≤ fuelB) (hall : ∀ j, isOkResp (serverB j d.id) = true) :
    resourceProjectDelete d (.ok ()) serverA fuelA = (.success, d)
    ∧ isStillExistsTimeout (resourceProjectDelete d (.ok ()) serverB fuelB).1 d.id = true
    ∧ (resourceProjectDelete d (.ok ()) serverB fuelB).2 = d
    ∧ (∀ (r : ProjectPayload) (s : ResourceData),
        deleteWaitBody (.ok r) s = (.retry (.stillExists s.id r.status), s)) := by
  have hok0 : ∀ j, j < n → isOkResp (serverA (0 + j) d.id) = true := by
    intro j hj
    simpa using hok j hj
  have hnf0 : serverA (0 + n) d.id = .error (.defaultErr c) := by simpa using hnf
  have h1 := deleteWait_reaches_notfound serverA d c hc n fuelA 0 hn hok0 hnf0
  have h2 := deleteWait_permanently_found serverB d hall fuelB 0 hB
  exact ⟨h1, h2.1, h2.2, fun r s => rfl⟩

/-- Witness for C6: two still-present reads then a 404 converge; three
still-present reads exhaust a fuel of 3 and time out on the manufactured
still-exists error. -/
theorem claimC6_witness :
    resourceProjectDelete sampleState (.ok ())
        (fun i _ => if i < 2 then .ok samplePayload else .error (.defaultErr 404)) 5 =
      (.success, sampleState)
    ∧ isStillExistsTimeout
        (resourceProjectDelete sampleState (.ok ()) (fun _ _ => .ok samplePayload) 3).1
        sampleState.id = true
    ∧ (resourceProjectDelete sampleState (.ok ()) (fun _ _ => .ok samplePayload) 3).2 =
        sampleState
    ∧ (∀ (r : ProjectPayload) (s : ResourceData),
        deleteWaitBody (.ok r) s = (.retry (.stillExists s.id r.status), s)) :=
  claimC6_delete_wait sampleState
    (fun i _ => if i < 2 then .ok samplePayload else .error (.defaultErr 404))
    (fun _ _ => .ok samplePayload) 404 2 5 3 rfl (by omega) (by decide) rfl
    (by omega) (fun _ => rfl)

/-- Counterexample to C7: the post-update step that materializes the
authoritative view is `resourceProjectRead`, which does special-case
NotFound — when the update call succeeds and the post-update get returns
404, Update returns success with the identity cleared, not an error. -/
theorem claimC7_counterexample :
    resourceProjectUpdate sampleState false false (fun _ => .ok ())
        (fun _ _ => .error (.defaultErr 404)) 1 =
      (.success, { sampleState with id := "" }) := by
  decide

/-- Claim C7 (amended): a NotFound (or any other) error from the update
call itself is surfaced as an error wrapped with the project id, never as
a success signal; but the post-update Read retains Read's NotFound
special-case, so a 403/404 during the post-update read yields success
with the identity cleared. -/
theorem claimC7_update_notfound
    (d : ResourceData) (hasNameChange hasLabelsChange : Bool)
    (clientA clientB : UpdateBody → Except RemoteError Unit)
    (rsA rsB : Nat → String → Except RemoteError ProjectPayload)
    (rfA rfB : Nat) (e : RemoteError) (c : Nat)
    (hA : clientA (buildUpdateBody d hasNameChange hasLabelsChange) = .error e)
    (hB : clientB (buildUpdateBody d hasNameChange hasLabelsChange) = .ok ())
    (hBr : rsB 0 d.id = .error (.defaultErr c))
    (hc : (c == 403 || c == 404) = true) (hBf : 1 ≤ rfB) :
    resourceProjectUpdate d hasNameChange hasLabelsChange clientA rsA rfA =
      (.failure (.updateFailed d.id (.clientErr e)), d)
    ∧ resourceProjectUpdate d hasNameChange hasLabelsChange clientB rsB rfB =
      (.success, { d with id := "" }) := by
  constructor
  · simp [resourceProjectUpdate, hA]
  · obtain ⟨f, rfl⟩ : ∃ f, rfB = f + 1 := ⟨rfB - 1, by omega⟩
    have hb : (fun j (s : ResourceData) => readBody (rsB j s.id) s) 0 d =
        (.done, { d with id := "" }) := by
      show readBody (rsB 0 d.id) d = _
      rw [hBr]
      simp [readBody, hc]
    have hread := retryRun_done (fun j (s : ResourceData) =>
      readBody (rsB j s.id) s) f 0 d _ hb
    simp only [resourceProjectUpdate, hB]
    exact hread

/-- Witness for C7: a conflict on the update call is wrapped and
surfaced; a 404 on the post-update read yields success with the identity
cleared. -/
theorem claimC7_witness :
    resourceProjectUpdate sampleState false false (fun _ => .error .conflict)
        (fun _ _ => .ok samplePayload) 1 =
      (.failure (.updateFailed sampleState.id (.clientErr .conflict)), sampleState)
    ∧ resourceProjectUpdate sampleState false false (fun _ => .ok ())
        (fun _ _ => .error (.defaultErr 404)) 2 =
      (.success, { sampleState with id := "" }) :=
  claimC7_update_notfound sampleState false false
    (fun _ => .error .conflict) (fun _ => .ok ())
    (fun _ _ => .ok samplePayload) (fun _ _ => .error (.defaultErr 404))
    1 2 .conflict 404 rfl rfl rfl rfl (by omega)

/-- Counterexample to C8: a non-retryable remote error in Read's loop
(here an unauthorized response) is surfaced raw, with no wrapping that
names the resource identifier or the operation. -/
theorem claimC8_counterexample :
    resourceProjectRead 1 (fun _ _ => .error .unauthorized) sampleState =
      (.failure (.clientErr .unauthorized), sampleState)
    ∧ ErrMsg.mentionsId (.clientErr .unauthorized) sampleState.id = false
    ∧ ErrMsg.isRawClientErr (.clientErr .unauthorized) = true := by
  decide

/-- Claim C8 (amended): errors surfaced by Update's and Delete's initial
calls are wrapped naming the project identifier; Create's initial-call
error is wrapped naming the operation but no identifier (none is assigned
yet); the timeout errors of Read's loop and Delete's wait loop carry the
identifier inside the wrapped last retryable error; but non-retryable
remote errors in Read's loop and Delete's wait loop are surfaced raw,
without identifier or operation context. -/
theorem claimC8_error_context
    (d : ResourceData) (hasNameChange hasLabelsChange : Bool)
    (client : UpdateBody → Except RemoteError Unit)
    (rs ws : Nat → String → Except RemoteError ProjectPayload)
    (rf wf : Nat) (e eDel eCr : RemoteError)
    (ps : Nat → Except RemoteError ProjectPayload) (pf : Nat)
    (hA : client (buildUpdateBody d hasNameChange hasLabelsChange) = .error e) :
    ((resourceProjectUpdate d hasNameChange hasLabelsChange client rs rf).1 =
        .failure (.updateFailed d.id (.clientErr e))
      ∧ (ErrMsg.updateFailed d.id (.clientErr e)).mentionsId d.id = true)
    ∧ ((resourceProjectDelete d (.error eDel) ws wf).1 =
        .failure (.deleteFailed d.id (.clientErr eDel))
      ∧ (ErrMsg.deleteFailed d.id (.clientErr eDel)).mentionsId d.id = true)
    ∧ (resourceProjectCreate d (.error eCr) ps pf rs rf).1 =
        .failure (.createFailed (.clientErr eCr))
    ∧ (∀ (fuel i : Nat) (s : ResourceData) (e' : ErrMsg),
        (retryRun (fun j u => readBody (rs j u.id) u) fuel i s).1 = .timedOut e' →
        e' = .timeoutElapsed ∨ ∃ msg, e' = .networkReadIssue s.id msg)
    ∧ (∀ (fuel i : Nat) (s : ResourceData) (e' : ErrMsg),
        (retryRun (fun j u => deleteWaitBody (ws j u.id) u) fuel i s).1 = .timedOut e' →
        e' = .timeoutElapsed ∨ ∃ st, e' = .stillExists s.id st) := by
  refine ⟨⟨?_, ?_⟩, ⟨rfl, ?_⟩, rfl, ?_, ?_⟩
  · simp [resourceProjectUpdate, hA]
  · simp [ErrMsg.mentionsId]
  · simp [ErrMsg.mentionsId]
  · intro fuel i s e' h
    exact read_timeout_err rs fuel i s e' h
  · intro fuel i s e' h
    exact deleteWait_timeout_err ws fuel i s e' h

/-- Witness for C8 at concrete inputs: a conflict from the update call is
wrapped with the id; the delete initial-call error likewise; Read's
timeout error wraps the network-issue message naming the id. -/
theorem claimC8_witness :
    ((resourceProjectUpdate sampleState false false (fun _ => .error .conflict)
          (fun _ _ => .error (.netError true false "t/o")) 1).1 =
        .failure (.updateFailed sampleState.id (.clientErr .conflict))
      ∧ (ErrMsg.updateFailed sampleState.id
          (.clientErr .conflict)).mentionsId sampleState.id = true)
    ∧ ((resourceProjectDelete sampleState (.error .unauthorized)
          (fun _ _ => .ok samplePayload) 1).1 =
        .failure (.deleteFailed sampleState.id (.clientErr .unauthorized))
      ∧ (ErrMsg.deleteFailed sampleState.id
          (.clientErr .unauthorized)).mentionsId sampleState.id = true)
    ∧ (resourceProjectCreate sampleState (.error .conflict)
          (fun _ => .ok samplePayload) 1
          (fun _ _ => .error (.netError true false "t/o")) 1).1 =
        .failure (.createFailed (.clientErr .conflict))
    ∧ (ErrMsg.networkReadIssue sampleState.id "t/o" = .timeoutElapsed
        ∨ ∃ msg, ErrMsg.networkReadIssue sampleState.id "t/o" =
            .networkReadIssue sampleState.id msg) := by
  have h := claimC8_error_context sampleState false false
    (fun _ => .error .conflict)
    (fun _ _ => .error (.netError true false "t/o"))
    (fun _ _ => .ok samplePayload) 1 1 .conflict .unauthorized .conflict
    (fun _ => .ok samplePayload) 1 rfl
  refine ⟨h.1, h.2.1, h.2.2.1, ?_⟩
  exact h.2.2.2.1 1 0 sampleState (.networkReadIssue sampleState.id "t/o") rfl

/-- Claim C9: Create records the assigned identity only after the poll
converges — if the initial create call fails, or the poll ends in
anything but success (timeout, unexpected state, non-retryable or
not-found probe error), Create returns an error and the local state,
identity included, is exactly the input state. -/
theorem claimC9_create_id_invariant
    (d : ResourceData) (e : RemoteError) (fresh : String)
    (psA psB : Nat → Except RemoteError ProjectPayload) (pfA pfB : Nat)
    (rs : Nat → String → Except RemoteError ProjectPayload) (rf : Nat)
    (o : PollOutcome) (cnt : Nat)
    (hpoll : pollUntil (createProbe psB) [projectInactive] [projectActive] pfB 0 "" =
      (o, cnt))
    (ho : isPollSuccess o = false) :
    resourceProjectCreate d (.error e) psA pfA rs rf =
      (.failure (.createFailed (.clientErr e)), d)
    ∧ resourceProjectCreate d (.ok fresh) psB pfB rs rf =
      (.failure (.waitCreateFailed fresh (pollErrMsg o)), d) := by
  constructor
  · rfl
  · cases o with
    | success obs => simp [isPollSuccess] at ho
    | failed e' => simp [resourceProjectCreate, hpoll, pollErrMsg]
    | notFoundFailure e' => simp [resourceProjectCreate, hpoll, pollErrMsg]
    | unexpectedState st => simp [resourceProjectCreate, hpoll, pollErrMsg]
    | timedOut st => simp [resourceProjectCreate, hpoll, pollErrMsg]

/-- Witness for C9: a failed initial create and a timed-out poll both
leave the state untouched. -/
theorem claimC9_witness :
    resourceProjectCreate { sampleState with id := "" } (.error .conflict)
        (fun _ => .ok inactivePayload) 1 (fun _ _ => .ok samplePayload) 1 =
      (.failure (.createFailed (.clientErr .conflict)), { sampleState with id := "" })
    ∧ resourceProjectCreate { sampleState with id := "" } (.ok "p-1")
        (fun _ => .ok inactivePayload) 1 (fun _ _ => .ok samplePayload) 1 =
      (.failure (.waitCreateFailed "p-1" (.pollTimeout projectInactive)),
        { sampleState with id := "" }) :=
  claimC9_create_id_invariant { sampleState with id := "" } .conflict "p-1"
    (fun _ => .ok inactivePayload) (fun _ => .ok inactivePayload) 1 1
    (fun _ _ => .ok samplePayload) 1 (.timedOut projectInactive) 1 (by decide) rfl
